import Mathlib

/-!
Verification of the Obsidian-Anki grammar sync script (`obsidian-sync.py`).

The development shallowly embeds the script's reconciliation core:
* the per-identifier decision logic of `main` (lines 708-740),
* `add_new_notes_to_anki` and `update_notes_in_anki` as call-trace
  producing functions over an oracle describing AnkiConnect's replies,
* `extract_data_for_anki`'s field extraction,
* the due-soon classification of `analyze_study_data`,
* the orphan detection and exit-code logic of `main`.

External effects (AnkiConnect requests) are embedded as an explicit list of
issued calls together with a store interpreter, so that whole-run properties
(idempotence, orphan preservation) can be stated about the resulting state.
-/

namespace ObsidianSync

/-- Python's string comparison on a list of characters: lexicographic by
code point, shorter prefix first.  This is the order used by
`obsidian_mod_time > anki_mod_time` in the script. -/
def strLtChars : List Char → List Char → Bool
  | [], [] => false
  | [], _ :: _ => true
  | _ :: _, [] => false
  | a :: as, b :: bs => if a < b then true else if b < a then false else strLtChars as bs

/-- `pyLt a b` embeds Python's `a < b` on strings. -/
def pyLt (a b : String) : Bool := strLtChars a.data b.data

/-- Python truthiness of an optional string (`if anki_mod_time:`):
`None` and the empty string are falsy. -/
def pyTruthy : Option String → Bool
  | none => false
  | some s => !s.isEmpty

/-- Python's `str.strip()` on the character list: drop whitespace from both
ends. -/
def pyStripChars (l : List Char) : List Char :=
  ((l.dropWhile Char.isWhitespace).reverse.dropWhile Char.isWhitespace).reverse

/-- Python's `str.strip()`. -/
def pyStrip (s : String) : String := String.mk (pyStripChars s.data)

/-- Whether a string is empty after stripping (`not s.strip()` in Python). -/
def strippedEmpty (s : String) : Bool := (pyStripChars s.data).isEmpty

/-- One existing Anki note as collected by `get_existing_anki_notes_info`:
the note id plus the `ObsidianModTime`, `ObsidianFilename` and
`EnglishSituationPrompt` field values (each `none` when the lookup
returned no value). -/
structure RemoteNote where
  noteId : Nat
  obsidianModTime : Option String
  obsidianFilename : Option String
  prompt : Option String
deriving DecidableEq

/-- The per-identifier reconciliation decision of `main`. -/
inductive Decision where
  | Create
  | Replace
  | Skip
deriving DecidableEq

/-- The `update_needed` computation of `main` (lines 710-722) for the first
note of the existing group: forced when the stored mod time is falsy,
otherwise a strict Python string comparison, and additionally forced whenever
the stored filename differs from the current relative path. -/
def updateNeeded (first : RemoteNote) (obsMod obsFile : String) : Bool :=
  let u := if pyTruthy first.obsidianModTime then pyLt (first.obsidianModTime.getD "") obsMod else true
  if first.obsidianFilename = some obsFile then u else true

/-- `update_needed` lifted to the whole group: the script reads
`anki_note_list[0]`; groups produced by `get_existing_anki_notes_info`
are never empty, so the `[]` case is unreachable. -/
def updateNeededGroup (group : List RemoteNote) (obsMod obsFile : String) : Bool :=
  match group with
  | [] => false
  | first :: _ => updateNeeded first obsMod obsFile

/-- The decision `main` takes for one identifier, from the result of looking
the identifier up in the existing-notes mapping (lines 708-740):
absent means `Create`; otherwise `Replace` exactly when `update_needed`. -/
def decideFor (lookup : Option (List RemoteNote)) (obsMod obsFile : String) : Decision :=
  match lookup with
  | none => Decision.Create
  | some group => if updateNeededGroup group obsMod obsFile then Decision.Replace else Decision.Skip

/-- Stated from the spec's words (section 4.1), as the refinement target for
the decision algorithm: absent identifier gives `Create`; with a group,
`Replace` when the first record's modification timestamp is absent, or the
local timestamp is strictly greater under ordinary string comparison, or the
recorded path differs; otherwise `Skip`. -/
def decisionSpec (lookup : Option (List RemoteNote)) (obsMod obsFile : String) : Decision :=
  match lookup with
  | none => Decision.Create
  | some group =>
    match group.head? with
    | none => Decision.Skip
    | some first =>
      match first.obsidianModTime with
      | none => Decision.Replace
      | some t =>
        if pyLt t obsMod then Decision.Replace
        else if first.obsidianFilename ≠ some obsFile then Decision.Replace
        else Decision.Skip

theorem strLtChars_irrefl (l : List Char) : strLtChars l l = false := by
  induction l with
  | nil => rfl
  | cons a as ih => simp [strLtChars, ih]

theorem pyLt_irrefl (s : String) : pyLt s s = false := strLtChars_irrefl s.data

theorem strLtChars_nil_left (l : List Char) : strLtChars [] l = !l.isEmpty := by
  cases l <;> rfl

theorem string_ne_empty_data {s : String} (h : s ≠ "") : s.data ≠ [] := by
  intro hd
  exact h (by cases s with | mk d => simp at hd; simp [hd])

theorem pyLt_empty_left {s : String} (h : s ≠ "") : pyLt "" s = true := by
  have hd := string_ne_empty_data h
  unfold pyLt
  rw [strLtChars_nil_left]
  cases hs : s.data with
  | nil => exact absurd hs hd
  | cons a as => simp [List.isEmpty]

theorem isEmpty_eq_false_of_ne {s : String} (h : s ≠ "") : s.isEmpty = false := by
  cases hs : s.isEmpty
  · rfl
  · exact absurd ((String.isEmpty_iff s).mp hs) h

/-- C1: for every lookup result and every local record with a nonempty
modification-timestamp string, the decision computed by `main` agrees with
the spec's per-identifier algorithm: `Create` when the identifier is absent,
otherwise `Replace` exactly when the first remote record's timestamp is
absent, or the local timestamp is strictly greater under string comparison,
or the recorded source path differs, and `Skip` otherwise. -/
theorem decision_matches_spec (lookup : Option (List RemoteNote)) (obsMod obsFile : String)
    (h : obsMod ≠ "") :
    decideFor lookup obsMod obsFile = decisionSpec lookup obsMod obsFile := by
  cases lookup with
  | none => rfl
  | some group =>
    cases group with
    | nil => rfl
    | cons first rest =>
      simp only [decideFor, decisionSpec, updateNeededGroup, List.head?]
      cases hmt : first.obsidianModTime with
      | none => simp [updateNeeded, pyTruthy, hmt]
      | some t =>
        by_cases ht : t = ""
        · subst ht
          simp [updateNeeded, pyTruthy, hmt, pyLt_empty_left h]
        · have hte : t.isEmpty = false := isEmpty_eq_false_of_ne ht
          by_cases hf : first.obsidianFilename = some obsFile
          · cases hlt : pyLt t obsMod <;>
              simp [updateNeeded, pyTruthy, hmt, hte, hf, hlt]
          · simp [updateNeeded, pyTruthy, hmt, hte, hf]

/-- C1 witness: a concrete instantiation of `decision_matches_spec`. -/
theorem decision_matches_spec_witness :
    decideFor (some [{ noteId := 1, obsidianModTime := some "2024-01-01T00:00:00",
                       obsidianFilename := some "a.md", prompt := some "p" }])
        "2024-06-01T00:00:00" "a.md"
      = decisionSpec (some [{ noteId := 1, obsidianModTime := some "2024-01-01T00:00:00",
                              obsidianFilename := some "a.md", prompt := some "p" }])
        "2024-06-01T00:00:00" "a.md" :=
  decision_matches_spec _ _ _ (by decide)

/-- The ten fields of the "Obsidian Grammar Sync" note type, as assembled
into `final_fields` by `add_new_notes_to_anki`. -/
structure NoteFields where
  AnkiExpression : String
  EnglishSituationPrompt : String
  Meaning : String
  Structure : String
  ExamplesJP : String
  ExamplesEN : String
  UsageNotes : String
  ObsidianFilename : String
  ObsidianModTime : String
  ObsidianVaultName : String
deriving DecidableEq

/-- The `fields_content` mapping built by `extract_data_for_anki`: the eight
fields shared by every note generated from one Obsidian file. -/
structure FieldsContent where
  Meaning : String
  Structure : String
  ExamplesJP : String
  ExamplesEN : String
  UsageNotes : String
  ObsidianFilename : String
  ObsidianModTime : String
  ObsidianVaultName : String
deriving DecidableEq

/-- The `note_info` dictionary returned by `extract_data_for_anki`. -/
structure NoteInfo where
  ankiExpression : String
  prompts : List String
  fields_content : FieldsContent
deriving DecidableEq

/-- The `final_fields` dictionary for one prompt: `fields_content` plus the
expression and the prompt substituted into their slots. -/
def buildFields (expr prompt : String) (fc : FieldsContent) : NoteFields :=
  { AnkiExpression := expr
    EnglishSituationPrompt := prompt
    Meaning := fc.Meaning
    Structure := fc.Structure
    ExamplesJP := fc.ExamplesJP
    ExamplesEN := fc.ExamplesEN
    UsageNotes := fc.UsageNotes
    ObsidianFilename := fc.ObsidianFilename
    ObsidianModTime := fc.ObsidianModTime
    ObsidianVaultName := fc.ObsidianVaultName }

/-- One AnkiConnect request issued by the sync loop (only mutating and
error-query calls are traced; the read-only snapshot queries are modelled as
inputs). -/
inductive Call where
  | addNote (fields : NoteFields)
  | deleteNotes (ids : List Nat)
  | getLastError
deriving DecidableEq

/-- Oracle describing AnkiConnect's replies to mutating calls:
whether `deleteNotes` succeeds, and for the k-th `addNote` issued inside one
`add_new_notes_to_anki` run, the note id it returns (`none` = failure). -/
structure Anki where
  deleteOk : Bool
  addResult : Nat → Option Nat

/-- The oracle in which every remote call succeeds. -/
def allOk : Anki := { deleteOk := true, addResult := fun _ => some 0 }

/-- The body of `add_new_notes_to_anki`'s loop over `obsidian_note_info["prompts"]`
(lines 575-645), producing the issued calls together with
`(added_count, failed_count)`.  A prompt is skipped (counted failed) when the
prompt string is empty (`if not prompt:`), or when both the expression and
the prompt are empty after stripping; otherwise one `addNote` is issued and,
on failure, one `getLastError`. -/
def addLoop (o : Anki) (expr : String) (fc : FieldsContent) :
    List String → Nat → List Call × Nat × Nat
  | [], _ => ([], 0, 0)
  | p :: rest, k =>
    if p = "" then
      let r := addLoop o expr fc rest k
      (r.1, r.2.1, r.2.2 + 1)
    else if strippedEmpty expr && strippedEmpty p then
      let r := addLoop o expr fc rest k
      (r.1, r.2.1, r.2.2 + 1)
    else
      match o.addResult k with
      | some _ =>
        let r := addLoop o expr fc rest (k + 1)
        (Call.addNote (buildFields expr p fc) :: r.1, r.2.1 + 1, r.2.2)
      | none =>
        let r := addLoop o expr fc rest (k + 1)
        (Call.addNote (buildFields expr p fc) :: Call.getLastError :: r.1, r.2.1, r.2.2 + 1)

/-- `add_new_notes_to_anki` (lines 568-648): issue the loop's calls and
return `added_count`. -/
def add_new_notes_to_anki (o : Anki) (info : NoteInfo) : List Call × Nat :=
  let r := addLoop o info.ankiExpression info.fields_content info.prompts 0
  (r.1, r.2.1)

/-- `update_notes_in_anki` (lines 378-402): collect the existing note ids;
with no ids, only warn and fall through to adding; otherwise delete them all
first and abort (returning 0, adding nothing) when the deletion fails;
only after a successful deletion run the `Create` logic. -/
def update_notes_in_anki (o : Anki) (existing : List RemoteNote) (info : NoteInfo) :
    List Call × Nat :=
  let ids := existing.map RemoteNote.noteId
  if ids.isEmpty then add_new_notes_to_anki o info
  else if o.deleteOk then
    let r := add_new_notes_to_anki o info
    (Call.deleteNotes ids :: r.1, r.2)
  else ([Call.deleteNotes ids], 0)

/-- The payloads of the `addNote` calls inside a call trace. -/
def submittedPayloads (cs : List Call) : List NoteFields :=
  cs.filterMap fun c =>
    match c with
    | Call.addNote f => some f
    | _ => none

/-- The due-soon test of `analyze_study_data` (line 487) for one card:
`isinstance(card['due'], int) and 0 < (card['due'] - today) <= due_soon_days`.
`due` is `none` when the card's due value is not an integer; `today` is the
approximated Anki day number computed from the epoch. -/
def dueSoonCheck (due : Option Int) (today dueSoonDays : Int) : Bool :=
  match due with
  | some d => decide (0 < d - today) && decide (d - today ≤ dueSoonDays)
  | none => false

/-- The eight per-file fields that every note generated from one Obsidian
file shares verbatim (everything except the expression and the prompt). -/
def sameSharedFields (a b : NoteFields) : Prop :=
  a.Meaning = b.Meaning ∧ a.Structure = b.Structure ∧ a.ExamplesJP = b.ExamplesJP ∧
  a.ExamplesEN = b.ExamplesEN ∧ a.UsageNotes = b.UsageNotes ∧
  a.ObsidianFilename = b.ObsidianFilename ∧ a.ObsidianModTime = b.ObsidianModTime ∧
  a.ObsidianVaultName = b.ObsidianVaultName

theorem strippedEmpty_ne_empty {p : String} (h : strippedEmpty p = false) : p ≠ "" := by
  intro he
  subst he
  exact Bool.noConfusion h

/-- With every remote create succeeding and every prompt nonempty after
stripping, the loop issues exactly one `addNote` per prompt, in order, and
counts every one as added. -/
theorem addLoop_all_success (o : Anki) (expr : String) (fc : FieldsContent) :
    ∀ (ps : List String) (k : Nat), (∀ p ∈ ps, strippedEmpty p = false) →
      (∀ j, (o.addResult j).isSome) →
      addLoop o expr fc ps k =
        (ps.map (fun p => Call.addNote (buildFields expr p fc)), ps.length, 0) := by
  intro ps
  induction ps with
  | nil => intro k _ _; rfl
  | cons p rest ih =>
    intro k hp ho
    have hpe : strippedEmpty p = false := hp p (List.mem_cons_self p rest)
    have hpne : ¬ p = "" := strippedEmpty_ne_empty hpe
    obtain ⟨id, hid⟩ := Option.isSome_iff_exists.mp (ho k)
    have ihr := ih (k + 1) (fun q hq => hp q (List.mem_cons_of_mem p hq)) ho
    simp [addLoop, hpne, hpe, hid, ihr]

/-- C3: for a local record whose prompts are all nonempty after stripping,
when every remote create call succeeds, realizing `Create` issues exactly one
`addNote` per prompt (N calls for N prompts), reports N notes added, and each
payload carries the record's identifier and its own prompt while all other
fields coincide across the payloads. -/
theorem create_realization_one_call_per_prompt (o : Anki) (info : NoteInfo)
    (hp : ∀ p ∈ info.prompts, strippedEmpty p = false)
    (ho : ∀ j, (o.addResult j).isSome) :
    (add_new_notes_to_anki o info).1 =
      info.prompts.map (fun p => Call.addNote (buildFields info.ankiExpression p info.fields_content)) ∧
    (add_new_notes_to_anki o info).2 = info.prompts.length ∧
    (∀ p ∈ info.prompts,
      (buildFields info.ankiExpression p info.fields_content).AnkiExpression = info.ankiExpression ∧
      (buildFields info.ankiExpression p info.fields_content).EnglishSituationPrompt = p ∧
      ∀ q ∈ info.prompts,
        sameSharedFields (buildFields info.ankiExpression p info.fields_content)
          (buildFields info.ankiExpression q info.fields_content)) := by
  have h := addLoop_all_success o info.ankiExpression info.fields_content info.prompts 0 hp ho
  refine ⟨?_, ?_, ?_⟩
  · simp [add_new_notes_to_anki, h]
  · simp [add_new_notes_to_anki, h]
  · intro p _
    exact ⟨rfl, rfl, fun q _ => ⟨rfl, rfl, rfl, rfl, rfl, rfl, rfl, rfl⟩⟩

/-- C3 witness: a record with two prompts yields exactly those two `addNote`
calls and an added count of 2. -/
theorem create_realization_one_call_per_prompt_witness :
    (add_new_notes_to_anki allOk
        { ankiExpression := "がる", prompts := ["I want to eat", "He seems cold"],
          fields_content :=
            { Meaning := "to show signs of", Structure := "V-stem + がる",
              ExamplesJP := "食べたがる", ExamplesEN := "wants to eat",
              UsageNotes := "N/A", ObsidianFilename := "2. Permanent Notes/garu.md",
              ObsidianModTime := "2024-06-01T00:00:00", ObsidianVaultName := "Current Notes" } }).2
      = 2 :=
  (create_realization_one_call_per_prompt allOk _
    (by intro p hp; fin_cases hp <;> decide) (fun j => rfl)).2.1

/-- C2: realizing `Replace` for a nonempty existing group issues the single
`deleteNotes` of the whole group's ids as the very first call; when that
deletion fails the trace is that one call only — zero creates, zero notes
added; when it succeeds, all remaining calls are exactly the `Create`
realization, so old and new notes never coexist as a result of this
operation. -/
theorem replace_deletes_group_before_creates (o : Anki) (existing : List RemoteNote)
    (info : NoteInfo) (h : existing ≠ []) :
    (update_notes_in_anki o existing info).1.head? =
      some (Call.deleteNotes (existing.map RemoteNote.noteId)) ∧
    (o.deleteOk = false →
      (update_notes_in_anki o existing info).1 =
        [Call.deleteNotes (existing.map RemoteNote.noteId)] ∧
      submittedPayloads (update_notes_in_anki o existing info).1 = [] ∧
      (update_notes_in_anki o existing info).2 = 0) ∧
    (o.deleteOk = true →
      (update_notes_in_anki o existing info).1 =
        Call.deleteNotes (existing.map RemoteNote.noteId) :: (add_new_notes_to_anki o info).1) := by
  cases existing with
  | nil => exact absurd rfl h
  | cons a as =>
    cases hdel : o.deleteOk <;>
      simp [update_notes_in_anki, hdel, submittedPayloads]

/-- C2 witness: with a failing deletion, the whole replace for a two-note
group is the single delete call and zero notes are added. -/
theorem replace_deletes_group_before_creates_witness :
    (update_notes_in_anki { deleteOk := false, addResult := fun _ => some 0 }
        [{ noteId := 11, obsidianModTime := some "2024-01-01T00:00:00",
           obsidianFilename := some "a.md", prompt := some "p1" },
         { noteId := 12, obsidianModTime := some "2024-01-01T00:00:00",
           obsidianFilename := some "a.md", prompt := some "p2" }]
        { ankiExpression := "がる", prompts := ["p1"],
          fields_content :=
            { Meaning := "m", Structure := "s", ExamplesJP := "", ExamplesEN := "",
              UsageNotes := "u", ObsidianFilename := "a.md",
              ObsidianModTime := "2024-06-01T00:00:00",
              ObsidianVaultName := "Current Notes" } }).1 =
      [Call.deleteNotes [11, 12]] :=
  ((replace_deletes_group_before_creates _ _ _ (by decide)).2.1 rfl).1

/-- C6 counterexample: a payload whose identifier is nonempty but whose
prompt string is empty is not submitted: `add_new_notes_to_anki` issues no
call at all for it and counts it as failed, contradicting the claim that a
both-empty payload is the only unconditional reject. -/
theorem empty_prompt_alone_rejected :
    addLoop allOk "がる"
        { Meaning := "m", Structure := "s", ExamplesJP := "", ExamplesEN := "",
          UsageNotes := "u", ObsidianFilename := "a.md",
          ObsidianModTime := "2024-06-01T00:00:00",
          ObsidianVaultName := "Current Notes" }
        [""] 0 = ([], 0, 1) := by decide

/-- The submission condition of `add_new_notes_to_anki`'s loop: a prompt's
payload reaches the `addNote` call exactly when this predicate holds. -/
def submitPred (expr p : String) : Bool :=
  if p = "" then false
  else if strippedEmpty expr && strippedEmpty p then false
  else true

/-- C6 (amended): a prompt's payload is submitted exactly when the prompt
string is nonempty and not both the identifier and the prompt are empty
after stripping; in particular a payload with only the identifier empty is
submitted, a payload with a whitespace-only prompt and nonempty identifier
is submitted, and a payload with an exactly-empty prompt is always rejected
before submission. -/
theorem submission_characterization (o : Anki) (expr : String) (fc : FieldsContent) :
    ∀ (ps : List String) (k : Nat),
      submittedPayloads (addLoop o expr fc ps k).1 =
        (ps.filter (submitPred expr)).map (fun p => buildFields expr p fc) := by
  intro ps
  induction ps with
  | nil => intro k; rfl
  | cons p rest ih =>
    intro k
    by_cases hpe : p = ""
    · subst hpe
      have hsp : submitPred expr "" = false := rfl
      rw [List.filter_cons, hsp]
      simp only [addLoop, if_pos rfl, Bool.false_eq_true, if_false]
      exact ih k
    · rw [List.filter_cons]
      by_cases hboth : (strippedEmpty expr && strippedEmpty p) = true
      · have hsp : submitPred expr p = false := by simp [submitPred, hpe, hboth]
        rw [hsp]
        simp only [addLoop, if_neg hpe, hboth, if_true, Bool.false_eq_true, if_false]
        exact ih k
      · have hboth' : (strippedEmpty expr && strippedEmpty p) = false :=
          Bool.eq_false_iff.mpr hboth
        have hsp : submitPred expr p = true := by simp [submitPred, hpe, hboth']
        rw [hsp]
        have ihk := ih (k + 1)
        simp only [submittedPayloads] at ihk
        cases hadd : o.addResult k <;>
          simp [addLoop, hpe, hboth', hadd, submittedPayloads, ihk]

/-- C8 counterexample: a card with due 105 and today-offset 104 is classified
due-soon even with window 1 (`0 < 1 <= 1`), contradicting the claim that it
is excluded for N = 1; the classification also consults nothing but the due
value, so no review-card restriction exists. -/
theorem due_window_one_still_included : dueSoonCheck (some 105) 104 1 = true := by decide

/-- C8 (amended): a study record is classified due-soon iff its due value is
an integer d with d minus the today offset in the interval (0, N]; the
card's scheduling state (new/learning/review) is not consulted — the check
reads only the due value. -/
theorem due_soon_iff (due : Option Int) (today n : Int) :
    dueSoonCheck due today n = true ↔
      ∃ d, due = some d ∧ 0 < d - today ∧ d - today ≤ n := by
  cases due with
  | none => simp [dueSoonCheck]
  | some d => simp [dueSoonCheck]

/-- A front-matter value that is a YAML string or a YAML list of scalars
(scalars are embedded after Python's `str()` conversion). -/
inductive YStrOrList where
  | str (s : String)
  | list (l : List String)
deriving DecidableEq

/-- The front-matter keys read by `extract_data_for_anki`; `none` models a
missing key. -/
structure Frontmatter where
  ankiExpression : Option String
  meaning : Option String
  structureField : Option String
  usageNotes : Option String
  exampleSentences : Option YStrOrList
  exampleSentencesEnglish : Option YStrOrList
  englishSituationPrompt : Option YStrOrList
deriving DecidableEq

/-- The example-list normalization (lines 248-249): a list maps each item
through `str(...).strip()`, a bare scalar becomes a one-element list, and a
missing key defaults to the empty list. -/
def toStrList : Option YStrOrList → List String
  | none => []
  | some (YStrOrList.list l) => l.map pyStrip
  | some (YStrOrList.str s) => [pyStrip s]

/-- The example padding of lines 251-255: the shorter of the two lists is
extended with empty strings until the lengths agree. -/
def padExamples (jp en : List String) : List String × List String :=
  if en.length < jp.length then (jp, en ++ List.replicate (jp.length - en.length) "")
  else if jp.length < en.length then (jp ++ List.replicate (en.length - jp.length) "", en)
  else (jp, en)

/-- The prompt normalization of lines 261-275: a bare string yields its
stripped form when nonempty, a list keeps the stripped items that are
nonempty, and a missing key (defaulting to `[]`) yields no prompts. -/
def extractPrompts : Option YStrOrList → List String
  | some (YStrOrList.str s) => if strippedEmpty s then [] else [pyStrip s]
  | some (YStrOrList.list l) => (l.map pyStrip).filter (fun p => !(p == ""))
  | none => []

/-- `extract_data_for_anki` (lines 219-316) after the file read: `fm` is the
parsed front matter (`none` when parsing failed or it was not a mapping),
`stem` the filename stem used as the identifier fallback, and `modTime`,
`relPath`, `vaultName` the file metadata.  The record is rejected (`none`)
exactly when the front matter is invalid or no valid prompt remains. -/
def extract_data_for_anki (fm : Option Frontmatter)
    (stem modTime relPath vaultName : String) : Option NoteInfo :=
  match fm with
  | none => none
  | some f =>
    let expr0 := pyStrip (f.ankiExpression.getD "")
    let anki_expression := if expr0 = "" then stem else expr0
    let ex := padExamples (toStrList f.exampleSentences) (toStrList f.exampleSentencesEnglish)
    let prompts := extractPrompts f.englishSituationPrompt
    if prompts.isEmpty then none
    else some
      { ankiExpression := anki_expression
        prompts := prompts
        fields_content :=
          { Meaning := pyStrip (f.meaning.getD "N/A")
            Structure := pyStrip (f.structureField.getD "N/A")
            ExamplesJP := String.intercalate "\n" ex.1
            ExamplesEN := String.intercalate "\n" ex.2
            UsageNotes := pyStrip (f.usageNotes.getD "N/A")
            ObsidianFilename := relPath
            ObsidianModTime := modTime
            ObsidianVaultName := vaultName } }

theorem padExamples_length (jp en : List String) :
    (padExamples jp en).1.length = (padExamples jp en).2.length := by
  unfold padExamples
  split_ifs with h1 h2 <;> simp only [List.length_append, List.length_replicate] <;> omega

/-- C7 counterexample: a front matter whose Japanese and English example
lists have different lengths (2 vs 1) is not rejected — extraction produces
a record, padding the English list with an empty string. -/
theorem mismatched_examples_still_extracted :
    extract_data_for_anki
        (some { ankiExpression := none, meaning := none, structureField := none,
                usageNotes := none,
                exampleSentences := some (YStrOrList.list ["a", "b"]),
                exampleSentencesEnglish := some (YStrOrList.list ["x"]),
                englishSituationPrompt := some (YStrOrList.list ["p"]) })
        "stem" "2024-06-01T00:00:00" "a.md" "Current Notes" =
      some { ankiExpression := "stem", prompts := ["p"],
             fields_content :=
               { Meaning := "N/A", Structure := "N/A",
                 ExamplesJP := "a\nb", ExamplesEN := "x\n", UsageNotes := "N/A",
                 ObsidianFilename := "a.md", ObsidianModTime := "2024-06-01T00:00:00",
                 ObsidianVaultName := "Current Notes" } } := by
  rfl

/-- C7 (amended): extraction rejects a note exactly when the front matter is
invalid or no valid prompt remains; example lists of different lengths are
not rejected — the shorter list is padded with empty strings to equal length
and both are newline-joined into the record. -/
theorem extraction_rejection_characterization (f : Frontmatter) (stem mt rp vn : String) :
    (extract_data_for_anki (some f) stem mt rp vn = none ↔
      extractPrompts f.englishSituationPrompt = []) ∧
    (∀ r, extract_data_for_anki (some f) stem mt rp vn = some r →
      r.fields_content.ExamplesJP =
        String.intercalate "\n"
          (padExamples (toStrList f.exampleSentences) (toStrList f.exampleSentencesEnglish)).1 ∧
      r.fields_content.ExamplesEN =
        String.intercalate "\n"
          (padExamples (toStrList f.exampleSentences) (toStrList f.exampleSentencesEnglish)).2 ∧
      r.prompts = extractPrompts f.englishSituationPrompt) ∧
    (padExamples (toStrList f.exampleSentences) (toStrList f.exampleSentencesEnglish)).1.length =
      (padExamples (toStrList f.exampleSentences) (toStrList f.exampleSentencesEnglish)).2.length ∧
    extract_data_for_anki none stem mt rp vn = none := by
  refine ⟨?_, ?_, padExamples_length _ _, rfl⟩
  · by_cases hp : (extractPrompts f.englishSituationPrompt).isEmpty = true
    · simp [extract_data_for_anki, hp, List.isEmpty_iff.mp hp]
    · have := (Bool.not_eq_true _).mp hp
      simp [extract_data_for_anki, this, List.isEmpty_iff.not.mp hp]
  · intro r hr
    by_cases hp : (extractPrompts f.englishSituationPrompt).isEmpty = true
    · simp [extract_data_for_anki, hp] at hr
    · have hp' := (Bool.not_eq_true _).mp hp
      simp only [extract_data_for_anki, hp', Bool.false_eq_true, if_false,
        Option.some.injEq] at hr
      subst hr
      exact ⟨rfl, rfl, rfl⟩

/-- C7 amended-theorem witness at the mismatched-lists input. -/
theorem extraction_rejection_characterization_witness :
    ({ ankiExpression := "stem", prompts := ["p"],
       fields_content :=
         { Meaning := "N/A", Structure := "N/A",
           ExamplesJP := "a\nb", ExamplesEN := "x\n", UsageNotes := "N/A",
           ObsidianFilename := "a.md", ObsidianModTime := "2024-06-01T00:00:00",
           ObsidianVaultName := "Current Notes" } } : NoteInfo).fields_content.ExamplesJP =
      String.intercalate "\n"
        (padExamples (toStrList (some (YStrOrList.list ["a", "b"])))
          (toStrList (some (YStrOrList.list ["x"])))).1 ∧
    ({ ankiExpression := "stem", prompts := ["p"],
       fields_content :=
         { Meaning := "N/A", Structure := "N/A",
           ExamplesJP := "a\nb", ExamplesEN := "x\n", UsageNotes := "N/A",
           ObsidianFilename := "a.md", ObsidianModTime := "2024-06-01T00:00:00",
           ObsidianVaultName := "Current Notes" } } : NoteInfo).fields_content.ExamplesEN =
      String.intercalate "\n"
        (padExamples (toStrList (some (YStrOrList.list ["a", "b"])))
          (toStrList (some (YStrOrList.list ["x"])))).2 ∧
    ({ ankiExpression := "stem", prompts := ["p"],
       fields_content :=
         { Meaning := "N/A", Structure := "N/A",
           ExamplesJP := "a\nb", ExamplesEN := "x\n", UsageNotes := "N/A",
           ObsidianFilename := "a.md", ObsidianModTime := "2024-06-01T00:00:00",
           ObsidianVaultName := "Current Notes" } } : NoteInfo).prompts =
      extractPrompts (some (YStrOrList.list ["p"])) :=
  (extraction_rejection_characterization
      { ankiExpression := none, meaning := none, structureField := none,
        usageNotes := none,
        exampleSentences := some (YStrOrList.list ["a", "b"]),
        exampleSentencesEnglish := some (YStrOrList.list ["x"]),
        englishSituationPrompt := some (YStrOrList.list ["p"]) }
      "stem" "2024-06-01T00:00:00" "a.md" "Current Notes").2.1 _ rfl

/-! ### The remote store, snapshots, and the reconciliation run -/

/-- The `RemoteNote` view of one stored note, as `get_existing_anki_notes_info`
builds it from `notesInfo` (Anki always reports a string value for every
field of an existing note, so the three optional fields are `some`). -/
def mkRemote (x : Nat × NoteFields) : RemoteNote :=
  { noteId := x.1
    obsidianModTime := some x.2.ObsidianModTime
    obsidianFilename := some x.2.ObsidianFilename
    prompt := some x.2.EnglishSituationPrompt }

/-- Appending one note to its expression's group, preserving both the
first-encounter order of keys and the encounter order inside each group —
exactly the dict-of-lists construction of `get_existing_anki_notes_info`. -/
def insertNote (m : List (String × List RemoteNote)) (k : String) (n : RemoteNote) :
    List (String × List RemoteNote) :=
  match m with
  | [] => [(k, [n])]
  | (k', g) :: rest =>
    if k' = k then (k', g ++ [n]) :: rest else (k', g) :: insertNote rest k n

/-- Folding the whole store into the grouped mapping; notes whose
`AnkiExpression` value is empty are skipped (`if not expression ... continue`,
line 352). -/
def snapshotAux (m : List (String × List RemoteNote)) :
    List (Nat × NoteFields) → List (String × List RemoteNote)
  | [] => m
  | x :: rest =>
    if x.2.AnkiExpression = "" then snapshotAux m rest
    else snapshotAux (insertNote m x.2.AnkiExpression (mkRemote x)) rest

/-- The `existing_anki_notes` mapping built by `get_existing_anki_notes_info`
from the current store contents. -/
def snapshot (store : List (Nat × NoteFields)) : List (String × List RemoteNote) :=
  snapshotAux [] store

/-- Dictionary lookup (`expression in existing_anki_notes` plus the access). -/
def lookupGroup : List (String × List RemoteNote) → String → Option (List RemoteNote)
  | [], _ => none
  | (k, g) :: rest, e => if k = e then some g else lookupGroup rest e

/-- The remote collection's state: stored notes (id and field values) plus
the next fresh note id. -/
structure SyncState where
  store : List (Nat × NoteFields)
  nextId : Nat
deriving DecidableEq

/-- Interpreting one AnkiConnect call on the store: `addNote` appends a new
note under a fresh id, `deleteNotes` removes the notes with the given ids,
`getLastError` is read-only. -/
def applyCall (st : SyncState) : Call → SyncState
  | Call.addNote f => { store := st.store ++ [(st.nextId, f)], nextId := st.nextId + 1 }
  | Call.deleteNotes ids => { st with store := st.store.filter fun x => !(ids.contains x.1) }
  | Call.getLastError => st

def applyCalls (st : SyncState) (cs : List Call) : SyncState := cs.foldl applyCall st

/-- All stored notes carrying the given expression. -/
def notesFor (e : String) (store : List (Nat × NoteFields)) : List (Nat × NoteFields) :=
  store.filter fun x => x.2.AnkiExpression == e

/-- The per-expression body of `main`'s reconciliation loop (lines 708-744):
look the expression up in the snapshot taken at the start of the run; when
present, replace via `update_notes_in_anki` exactly when `update_needed`,
else skip with no calls; when absent, add via `add_new_notes_to_anki`. -/
def processExpression (o : Anki) (m : List (String × List RemoteNote)) (info : NoteInfo) :
    List Call :=
  match lookupGroup m info.ankiExpression with
  | some group =>
    if updateNeededGroup group info.fields_content.ObsidianModTime
        info.fields_content.ObsidianFilename
    then (update_notes_in_anki o group info).1
    else []
  | none => (add_new_notes_to_anki o info).1

/-- The reconciliation loop over the extracted records, against the fixed
snapshot `m` taken before the loop, threading the store state through the
issued calls. -/
def runLocals (o : Anki) (m : List (String × List RemoteNote)) :
    List NoteInfo → SyncState → List Call × SyncState
  | [], st => ([], st)
  | info :: rest, st =>
    let cs := processExpression o m info
    let st' := applyCalls st cs
    let r := runLocals o m rest st'
    (cs ++ r.1, r.2)

/-- One full sync pass of `main`: snapshot the store, then run the loop over
the per-file extraction results (a `none` entry is a file whose extraction
failed: it is counted and skipped, contributing no calls and no processed
expression). -/
def runSync (o : Anki) (extracted : List (Option NoteInfo)) (st : SyncState) :
    List Call × SyncState :=
  runLocals o (snapshot st.store) (extracted.filterMap id) st

/-- `processed_expressions`: the identifiers of the successfully extracted
records (line 703 — reached only after extraction succeeded). -/
def processedExpressions (extracted : List (Option NoteInfo)) : List String :=
  (extracted.filterMap id).map NoteInfo.ankiExpression

/-- The orphan set of lines 750-752: snapshot keys minus processed
expressions.  Orphans are only logged; `notes_to_delete` is assembled for
the log message but never passed to any AnkiConnect call. -/
def orphanExpressions (extracted : List (Option NoteInfo)) (st : SyncState) : List String :=
  ((snapshot st.store).map Prod.fst).filter fun e =>
    !((processedExpressions extracted).contains e)

/-- Well-formedness of the store: note ids are pairwise distinct and below
the next fresh id. -/
def wfStore (st : SyncState) : Prop :=
  (st.store.map Prod.fst).Nodup ∧ ∀ x ∈ st.store, x.1 < st.nextId

/-- The notes present in `st` but not in `st0` were created after `st0`:
their ids are at least `st0.nextId`. -/
def Extends (st0 st : SyncState) : Prop :=
  st0.nextId ≤ st.nextId ∧ ∀ x ∈ st.store, x ∈ st0.store ∨ st0.nextId ≤ x.1

/-- The validity facts extraction guarantees for every record it produces:
a nonempty identifier (the filename stem is the fallback), a nonempty
ISO-format modification timestamp, and at least one prompt, each nonempty
after stripping. -/
def GoodInfo (info : NoteInfo) : Prop :=
  info.ankiExpression ≠ "" ∧ info.fields_content.ObsidianModTime ≠ "" ∧
  info.prompts ≠ [] ∧ ∀ p ∈ info.prompts, strippedEmpty p = false

instance : DecidablePred GoodInfo := fun info => by unfold GoodInfo; infer_instance

instance : ∀ st, Decidable (wfStore st) := fun st => by unfold wfStore; infer_instance

/-! ### Startup checks and the exit code -/

def ANKI_DECK_NAME : String := "Japanese::Grammar::Japanese Grammar - Obsidian"

def ANKI_NOTE_TYPE_NAME : String := "Obsidian Grammar Sync"

def ANKI_NOTE_FIELDS : List String :=
  ["AnkiExpression", "EnglishSituationPrompt", "Meaning", "Structure",
   "ExamplesJP", "ExamplesEN", "UsageNotes", "ObsidianFilename",
   "ObsidianModTime", "ObsidianVaultName"]

/-- The AnkiConnect replies consulted during `main`'s startup checks:
whether `version` returned a truthy result, the reply to `deckNames`
(`none` = call failed), whether `createDeck` succeeds, and the replies to
`modelNames` and `modelFieldNames`. -/
structure Env where
  versionOk : Bool
  deckNames : Option (List String)
  createDeckOk : Bool
  modelNames : Option (List String)
  modelFieldNames : Option (List String)

/-- `check_or_create_deck` (lines 105-128). -/
def check_or_create_deck (env : Env) (deck : String) : Bool :=
  match env.deckNames with
  | none => false
  | some names => if deck ∈ names then true else env.createDeckOk

/-- `validate_note_type` (lines 130-160). -/
def validate_note_type (env : Env) (noteType : String) (required : List String) : Bool :=
  match env.modelNames with
  | none => false
  | some models =>
    if noteType ∈ models then
      match env.modelFieldNames with
      | none => false
      | some fields => (required.filter fun f => !(fields.contains f)).isEmpty
    else false

/-- `main`'s control flow for the exit code (lines 661-673 and 785): each of
the three startup checks aborts with 1; otherwise the sync runs to completion
and `main` returns 0 regardless of per-record outcomes. -/
def mainRun (env : Env) (o : Anki) (extracted : List (Option NoteInfo)) (st : SyncState) :
    Nat × List Call :=
  if env.versionOk = false then (1, [])
  else if check_or_create_deck env ANKI_DECK_NAME = false then (1, [])
  else if validate_note_type env ANKI_NOTE_TYPE_NAME ANKI_NOTE_FIELDS = false then (1, [])
  else (0, (runSync o extracted st).1)

/-- C9: the exit code is 0 iff all three startup checks pass (AnkiConnect
responding, deck verified or created, note type present with all required
fields); it is always 0 or 1; and it does not depend on the oracle's
per-record outcomes, the extraction results, or the store state — per-note
failures never change the exit code. -/
theorem exit_code_characterization (env : Env) (o : Anki)
    (extracted : List (Option NoteInfo)) (st : SyncState) :
    ((mainRun env o extracted st).1 = 0 ↔
      env.versionOk = true ∧ check_or_create_deck env ANKI_DECK_NAME = true ∧
        validate_note_type env ANKI_NOTE_TYPE_NAME ANKI_NOTE_FIELDS = true) ∧
    ((mainRun env o extracted st).1 = 0 ∨ (mainRun env o extracted st).1 = 1) ∧
    (∀ (o' : Anki) (extracted' : List (Option NoteInfo)) (st' : SyncState),
      (mainRun env o extracted st).1 = (mainRun env o' extracted' st').1) := by
  cases hv : env.versionOk <;> cases hd : check_or_create_deck env ANKI_DECK_NAME <;>
    cases hn : validate_note_type env ANKI_NOTE_TYPE_NAME ANKI_NOTE_FIELDS <;>
      simp [mainRun, hv, hd, hn]

/-- C10: when a grammar-tagged file fails extraction (a `none` entry in the
per-file results) and no successfully extracted record carries identifier
`e`, any remote group keyed `e` is reported as an orphan of this same run,
and `e` is indeed absent from the processed-identifier set. -/
theorem failed_extraction_yields_orphan (extracted : List (Option NoteInfo))
    (st : SyncState) (e : String)
    (_hfail : none ∈ extracted)
    (hkey : e ∈ (snapshot st.store).map Prod.fst)
    (hnomatch : ∀ info ∈ extracted.filterMap id, info.ankiExpression ≠ e) :
    e ∈ orphanExpressions extracted st ∧ e ∉ processedExpressions extracted := by
  have hnp : e ∉ processedExpressions extracted := by
    intro hmem
    obtain ⟨info, hin, heq⟩ := List.mem_map.mp hmem
    exact hnomatch info hin heq
  refine ⟨List.mem_filter.mpr ⟨hkey, ?_⟩, hnp⟩
  simpa using hnp

/-- C10 witness: one remote group "がる", one grammar file that failed
extraction, no successful records: "がる" is orphaned. -/
theorem failed_extraction_yields_orphan_witness :
    "がる" ∈ orphanExpressions [none]
        { store := [(0, { AnkiExpression := "がる", EnglishSituationPrompt := "p",
                          Meaning := "m", Structure := "s", ExamplesJP := "",
                          ExamplesEN := "", UsageNotes := "u",
                          ObsidianFilename := "a.md",
                          ObsidianModTime := "2024-01-01T00:00:00",
                          ObsidianVaultName := "Current Notes" })], nextId := 1 } ∧
    "がる" ∉ processedExpressions [none] :=
  failed_extraction_yields_orphan [none] _ "がる" (by decide) (by decide)
    (by intro info h; cases h)

/-! ### Snapshot and store lemmas -/

theorem lookupGroup_insertNote (m : List (String × List RemoteNote)) (k : String)
    (n : RemoteNote) (e : String) :
    lookupGroup (insertNote m k n) e =
      if k = e then some ((lookupGroup m e).getD [] ++ [n]) else lookupGroup m e := by
  induction m with
  | nil => by_cases h : k = e <;> simp [insertNote, lookupGroup, h]
  | cons x rest ih =>
    obtain ⟨k', g⟩ := x
    by_cases h1 : k' = k
    · subst h1
      by_cases h2 : k' = e
      · subst h2; simp [insertNote, lookupGroup]
      · simp [insertNote, lookupGroup, h2]
    · by_cases h2 : k' = e
      · subst h2
        have h3 : ¬ k = k' := fun hh => h1 hh.symm
        simp [insertNote, lookupGroup, h1, h3]
      · simp [insertNote, lookupGroup, h1, h2, ih]

/-- Combining an accumulated group with the notes contributed by the rest of
the store (helper for characterizing `snapshotAux`). -/
def combineGroup : Option (List RemoteNote) → List RemoteNote → Option (List RemoteNote)
  | some g, ns => some (g ++ ns)
  | none, ns => if ns = [] then none else some ns

theorem lookupGroup_snapshotAux (e : String) (he : e ≠ "") :
    ∀ (store : List (Nat × NoteFields)) (m : List (String × List RemoteNote)),
      lookupGroup (snapshotAux m store) e =
        combineGroup (lookupGroup m e) ((notesFor e store).map mkRemote) := by
  intro store
  induction store with
  | nil =>
    intro m
    simp only [snapshotAux, notesFor, List.filter_nil, List.map_nil]
    cases h : lookupGroup m e <;> simp [combineGroup]
  | cons x rest ih =>
    intro m
    by_cases hx : x.2.AnkiExpression = ""
    · have hne : (x.2.AnkiExpression == e) = false :=
        beq_eq_false_iff_ne.mpr (by rw [hx]; exact fun hh => he hh.symm)
      have hnf : notesFor e (x :: rest) = notesFor e rest := by
        simp [notesFor, List.filter_cons, hne]
      simp only [snapshotAux, hx, if_pos, hnf]
      exact ih m
    · by_cases hxe : x.2.AnkiExpression = e
      · have hbe : (x.2.AnkiExpression == e) = true := beq_iff_eq.mpr hxe
        have hnf : notesFor e (x :: rest) = x :: notesFor e rest := by
          simp [notesFor, List.filter_cons, hbe]
        simp only [snapshotAux, hx, if_neg, if_false, hnf, List.map_cons]
        rw [ih (insertNote m x.2.AnkiExpression (mkRemote x)), lookupGroup_insertNote,
          if_pos hxe]
        cases hl : lookupGroup m e <;> simp [combineGroup]
      · have hbe : (x.2.AnkiExpression == e) = false := beq_eq_false_iff_ne.mpr hxe
        have hnf : notesFor e (x :: rest) = notesFor e rest := by
          simp [notesFor, List.filter_cons, hbe]
        simp only [snapshotAux, hx, if_neg, if_false, hnf]
        rw [ih (insertNote m x.2.AnkiExpression (mkRemote x)), lookupGroup_insertNote,
          if_neg hxe]

theorem lookupGroup_snapshot (e : String) (he : e ≠ "") (store : List (Nat × NoteFields)) :
    lookupGroup (snapshot store) e = combineGroup none ((notesFor e store).map mkRemote) :=
  lookupGroup_snapshotAux e he store []

theorem lookupGroup_snapshotAux_empty_key :
    ∀ (store : List (Nat × NoteFields)) (m : List (String × List RemoteNote)),
      lookupGroup (snapshotAux m store) "" = lookupGroup m "" := by
  intro store
  induction store with
  | nil => intro m; rfl
  | cons x rest ih =>
    intro m
    by_cases hx : x.2.AnkiExpression = ""
    · simp only [snapshotAux, hx, if_pos]
      exact ih m
    · simp only [snapshotAux, hx, if_neg, if_false]
      rw [ih (insertNote m x.2.AnkiExpression (mkRemote x)), lookupGroup_insertNote,
        if_neg hx]

theorem lookupGroup_snapshot_none_iff (e : String) (he : e ≠ "")
    (store : List (Nat × NoteFields)) :
    lookupGroup (snapshot store) e = none ↔ notesFor e store = [] := by
  rw [lookupGroup_snapshot e he store]
  cases hn : (notesFor e store).map mkRemote with
  | nil =>
    simp only [combineGroup, if_pos]
    simp only [List.map_eq_nil_iff] at hn
    simp [hn]
  | cons a l =>
    have : notesFor e store ≠ [] := by
      intro hh; rw [hh] at hn; exact List.noConfusion hn
    simp [combineGroup, this]

theorem lookupGroup_snapshot_some (e : String) (he : e ≠ "")
    (store : List (Nat × NoteFields)) (g : List RemoteNote)
    (h : lookupGroup (snapshot store) e = some g) :
    g = (notesFor e store).map mkRemote ∧ notesFor e store ≠ [] := by
  rw [lookupGroup_snapshot e he store] at h
  by_cases hn : (notesFor e store).map mkRemote = []
  · rw [hn] at h
    simp [combineGroup] at h
  · simp only [combineGroup, hn, if_neg, if_false, Option.some.injEq] at h
    refine ⟨h.symm, ?_⟩
    intro hh
    exact hn (by rw [hh]; rfl)

theorem applyCalls_append (st : SyncState) (cs1 cs2 : List Call) :
    applyCalls st (cs1 ++ cs2) = applyCalls (applyCalls st cs1) cs2 := by
  simp [applyCalls, List.foldl_append]

theorem notesFor_append (e : String) (l1 l2 : List (Nat × NoteFields)) :
    notesFor e (l1 ++ l2) = notesFor e l1 ++ notesFor e l2 := by
  simp [notesFor, List.filter_append]

theorem eq_of_fst_eq_of_nodup :
    ∀ {l : List (Nat × NoteFields)}, (l.map Prod.fst).Nodup →
      ∀ {x y : Nat × NoteFields}, x ∈ l → y ∈ l → x.1 = y.1 → x = y := by
  intro l
  induction l with
  | nil => intro _ x y hx; cases hx
  | cons a l ih =>
    intro h x y hx hy hfst
    rw [List.map_cons, List.nodup_cons] at h
    rcases List.mem_cons.mp hx with hx1 | hx1 <;> rcases List.mem_cons.mp hy with hy1 | hy1
    · rw [hx1, hy1]
    · exfalso
      apply h.1
      have ha : a.1 = y.1 := by rw [← hx1, hfst]
      rw [ha]
      exact List.mem_map_of_mem Prod.fst hy1
    · exfalso
      apply h.1
      have ha : a.1 = x.1 := by rw [← hy1, ← hfst]
      rw [ha]
      exact List.mem_map_of_mem Prod.fst hx1
    · exact ih h.2 hx1 hy1 hfst

/-! ### Well-formedness and frame lemmas for call application -/

theorem applyCall_wf (st : SyncState) (hw : wfStore st) (c : Call) :
    wfStore (applyCall st c) := by
  cases c with
  | addNote f =>
    refine ⟨?_, ?_⟩
    · simp only [applyCall, List.map_append, List.map_cons, List.map_nil]
      refine hw.1.append (List.nodup_singleton _) ?_
      intro a ha hb
      rcases List.mem_map.mp ha with ⟨x, hx, hxa⟩
      have h1 : a < st.nextId := hxa ▸ hw.2 x hx
      have h2 : a = st.nextId := by simpa using hb
      omega
    · intro x hx
      simp only [applyCall] at hx ⊢
      rcases List.mem_append.mp hx with h | h
      · exact Nat.lt_succ_of_lt (hw.2 x h)
      · have : x = (st.nextId, f) := by simpa using h
        rw [this]
        exact Nat.lt_succ_self _
  | deleteNotes ids =>
    refine ⟨?_, ?_⟩
    · exact hw.1.sublist ((List.filter_sublist st.store).map Prod.fst)
    · intro x hx
      exact hw.2 x (List.mem_filter.mp hx).1
  | getLastError => exact hw

theorem applyCall_extends (st0 st : SyncState) (hx : Extends st0 st) (c : Call) :
    Extends st0 (applyCall st c) := by
  cases c with
  | addNote f =>
    refine ⟨Nat.le_succ_of_le hx.1, ?_⟩
    intro x hmem
    simp only [applyCall] at hmem
    rcases List.mem_append.mp hmem with h | h
    · exact hx.2 x h
    · right
      have : x = (st.nextId, f) := by simpa using h
      rw [this]
      exact hx.1
  | deleteNotes ids =>
    exact ⟨hx.1, fun x hmem => hx.2 x (List.mem_filter.mp hmem).1⟩
  | getLastError => exact hx

theorem applyCalls_wf (cs : List Call) : ∀ (st : SyncState), wfStore st →
    wfStore (applyCalls st cs) := by
  induction cs with
  | nil => intro st hw; exact hw
  | cons c cs ih =>
    intro st hw
    exact ih (applyCall st c) (applyCall_wf st hw c)

theorem applyCalls_extends (st0 : SyncState) (cs : List Call) :
    ∀ (st : SyncState), Extends st0 st → Extends st0 (applyCalls st cs) := by
  induction cs with
  | nil => intro st hx; exact hx
  | cons c cs ih =>
    intro st hx
    exact ih (applyCall st c) (applyCall_extends st0 st hx c)

/-- A trace consisting only of `getLastError` and of `addNote` calls whose
payload carries the given expression. -/
def AddOnly (expr : String) (cs : List Call) : Prop :=
  ∀ c ∈ cs, c = Call.getLastError ∨ ∃ f, c = Call.addNote f ∧ f.AnkiExpression = expr

theorem addLoop_addOnly (o : Anki) (expr : String) (fc : FieldsContent) :
    ∀ (ps : List String) (k : Nat), AddOnly expr (addLoop o expr fc ps k).1 := by
  intro ps
  induction ps with
  | nil => intro k c hc; cases hc
  | cons p rest ih =>
    intro k c hc
    by_cases hpe : p = ""
    · subst hpe
      simp only [addLoop, if_pos] at hc
      exact ih k c hc
    · by_cases hboth : (strippedEmpty expr && strippedEmpty p) = true
      · simp only [addLoop, hpe, if_neg, if_false, hboth, if_pos] at hc
        exact ih k c hc
      · have hboth' : (strippedEmpty expr && strippedEmpty p) = false :=
          Bool.eq_false_iff.mpr hboth
        cases hadd : o.addResult k <;>
          simp only [addLoop, hpe, if_neg, if_false, hboth', Bool.false_eq_true, hadd,
            List.mem_cons] at hc
        · rcases hc with h | h | h
          · rw [h]; right; exact ⟨_, rfl, rfl⟩
          · rw [h]; left; rfl
          · exact ih (k + 1) c h
        · rcases hc with h | h
          · rw [h]; right; exact ⟨_, rfl, rfl⟩
          · exact ih (k + 1) c h

theorem applyCalls_addOnly_frame (e expr : String) (hne : expr ≠ e) :
    ∀ (cs : List Call), AddOnly expr cs → ∀ (st : SyncState),
      notesFor e (applyCalls st cs).store = notesFor e st.store := by
  intro cs
  induction cs with
  | nil => intro _ st; rfl
  | cons c cs ih =>
    intro h st
    have hc := h c (List.mem_cons_self c cs)
    have hrest : AddOnly expr cs := fun c' hc' => h c' (List.mem_cons_of_mem c hc')
    rcases hc with h1 | ⟨f, h1, hf⟩
    · subst h1
      have : applyCall st Call.getLastError = st := rfl
      show notesFor e (applyCalls (applyCall st Call.getLastError) cs).store = _
      rw [this, ih hrest st]
    · subst h1
      show notesFor e (applyCalls (applyCall st (Call.addNote f)) cs).store = _
      rw [ih hrest (applyCall st (Call.addNote f))]
      have hbe : (f.AnkiExpression == e) = false := beq_eq_false_iff_ne.mpr (hf ▸ hne)
      simp [applyCall, notesFor, List.filter_append, List.filter_cons, hbe]

/-- The notes appended to the store by a fully successful `Create`
realization, starting at the given fresh id. -/
def addedList (expr : String) (fc : FieldsContent) : Nat → List String → List (Nat × NoteFields)
  | _, [] => []
  | n, p :: ps => (n, buildFields expr p fc) :: addedList expr fc (n + 1) ps

theorem applyCalls_addTrace (expr : String) (fc : FieldsContent) :
    ∀ (ps : List String) (st : SyncState),
      applyCalls st (ps.map fun p => Call.addNote (buildFields expr p fc)) =
        { store := st.store ++ addedList expr fc st.nextId ps,
          nextId := st.nextId + ps.length } := by
  intro ps
  induction ps with
  | nil => intro st; simp [applyCalls, addedList]
  | cons p ps ih =>
    intro st
    show applyCalls (applyCall st (Call.addNote (buildFields expr p fc)))
        (ps.map fun p => Call.addNote (buildFields expr p fc)) = _
    rw [ih (applyCall st (Call.addNote (buildFields expr p fc)))]
    simp only [applyCall, addedList, SyncState.mk.injEq]
    constructor
    · simp [List.append_assoc]
    · simp only [List.length_cons]
      omega

theorem addedList_fst_bound (expr : String) (fc : FieldsContent) :
    ∀ (ps : List String) (n : Nat) (x : Nat × NoteFields),
      x ∈ addedList expr fc n ps → n ≤ x.1 ∧ x.1 < n + ps.length := by
  intro ps
  induction ps with
  | nil => intro n x hx; cases hx
  | cons p ps ih =>
    intro n x hx
    rcases List.mem_cons.mp hx with h | h
    · rw [h]
      exact ⟨Nat.le_refl n, by show n < n + (ps.length + 1); omega⟩
    · have := ih (n + 1) x h
      simp only [List.length_cons]
      omega

theorem notesFor_addedList_self (expr : String) (fc : FieldsContent) :
    ∀ (ps : List String) (n : Nat),
      notesFor expr (addedList expr fc n ps) = addedList expr fc n ps := by
  intro ps
  induction ps with
  | nil => intro n; rfl
  | cons p ps ih =>
    intro n
    have hbe : ((buildFields expr p fc).AnkiExpression == expr) = true :=
      beq_iff_eq.mpr rfl
    simp only [addedList, notesFor, List.filter_cons] at ih ⊢
    simp [hbe, ih]

theorem notesFor_addedList_other (e expr : String) (fc : FieldsContent) (hne : expr ≠ e) :
    ∀ (ps : List String) (n : Nat), notesFor e (addedList expr fc n ps) = [] := by
  intro ps
  induction ps with
  | nil => intro n; rfl
  | cons p ps ih =>
    intro n
    have hbe : ((buildFields expr p fc).AnkiExpression == e) = false :=
      beq_eq_false_iff_ne.mpr hne
    simp only [addedList, notesFor, List.filter_cons] at ih ⊢
    simp [hbe, ih]

/-! ### Deleting exactly one expression's group -/

theorem notesFor_filter (e : String) (keep : Nat × NoteFields → Bool)
    (store : List (Nat × NoteFields)) :
    notesFor e (store.filter keep) = (notesFor e store).filter keep := by
  simp only [notesFor, List.filter_filter]
  exact List.filter_congr fun x _ => Bool.and_comm _ _

/-- Deleting the ids of `st0`'s group for `e` empties the current group,
provided the current group still equals `st0`'s. -/
theorem delete_group_self (st0 store : List (Nat × NoteFields)) (e : String)
    (hsame : notesFor e store = notesFor e st0) :
    notesFor e (store.filter fun x => !(((notesFor e st0).map Prod.fst).contains x.1)) = [] := by
  rw [notesFor_filter, List.filter_eq_nil_iff]
  intro x hx
  rw [hsame] at hx
  simp
  exact ⟨x.2, hx⟩

/-- Deleting the ids of `st0`'s group for `gExpr` leaves every other
expression's current notes untouched, given well-formed ids. -/
theorem delete_group_frame (st0 st : SyncState) (hw0 : wfStore st0) (hx : Extends st0 st)
    (gExpr e : String) (hne : gExpr ≠ e) :
    notesFor e (st.store.filter fun x =>
        !(((notesFor gExpr st0.store).map Prod.fst).contains x.1)) =
      notesFor e st.store := by
  rw [notesFor_filter, List.filter_eq_self]
  intro x hxm
  have hxe : x.2.AnkiExpression = e := by
    have := (List.mem_filter.mp hxm).2
    exact beq_iff_eq.mp this
  have hxs : x ∈ st.store := (List.mem_filter.mp hxm).1
  rw [Bool.not_eq_true']
  rw [Bool.eq_false_iff]
  intro hcont
  simp at hcont
  obtain ⟨b, hb⟩ := hcont
  have hys : (x.1, b) ∈ st0.store := (List.mem_filter.mp hb).1
  have hye : b.AnkiExpression = gExpr := beq_iff_eq.mp (List.mem_filter.mp hb).2
  rcases hx.2 x hxs with hmem | hge
  · have hxy : x = (x.1, b) := eq_of_fst_eq_of_nodup hw0.1 hmem hys rfl
    apply hne
    rw [← hye, ← hxe, hxy]
  · have : (x.1, b).1 < st0.nextId := hw0.2 (x.1, b) hys
    simp at this
    omega

/-! ### Per-identifier postconditions of one reconciliation step -/

theorem applyCalls_cons (st : SyncState) (c : Call) (cs : List Call) :
    applyCalls st (c :: cs) = applyCalls (applyCall st c) cs := rfl

theorem map_noteId_mkRemote (l : List (Nat × NoteFields)) :
    (l.map mkRemote).map RemoteNote.noteId = l.map Prod.fst := by
  rw [List.map_map]
  rfl

/-- A note just created from the local record never triggers another update:
its stored mod time equals the local one (nonempty, so truthy; not strictly
less than itself) and its stored filename equals the local relative path. -/
theorem updateNeeded_fresh (fc : FieldsContent) (id : Nat) (expr p : String)
    (hmt : fc.ObsidianModTime ≠ "") :
    updateNeeded (mkRemote (id, buildFields expr p fc))
      fc.ObsidianModTime fc.ObsidianFilename = false := by
  simp [updateNeeded, mkRemote, buildFields, pyTruthy, isEmpty_eq_false_of_ne hmt,
    pyLt_irrefl]

/-- If an expression's current notes are exactly a freshly created
`addedList`, the next run's decision for that record is `Skip`. -/
theorem decideFor_skip_of_fresh_group (store : List (Nat × NoteFields)) (info : NoteInfo)
    (he : info.ankiExpression ≠ "") (hmt : info.fields_content.ObsidianModTime ≠ "")
    (n : Nat) (ps : List String)
    (hshape : notesFor info.ankiExpression store =
      addedList info.ankiExpression info.fields_content n ps)
    (hpsne : ps ≠ []) :
    decideFor (lookupGroup (snapshot store) info.ankiExpression)
      info.fields_content.ObsidianModTime info.fields_content.ObsidianFilename =
      Decision.Skip := by
  cases ps with
  | nil => exact absurd rfl hpsne
  | cons p ps' =>
    rw [lookupGroup_snapshot _ he, hshape]
    simp only [addedList, List.map_cons]
    simp [combineGroup, decideFor, updateNeededGroup,
      updateNeeded_fresh info.fields_content n info.ankiExpression p hmt]

theorem processExpression_eq_nil_of_skip (o : Anki)
    (m : List (String × List RemoteNote)) (info : NoteInfo)
    (h : decideFor (lookupGroup m info.ankiExpression)
      info.fields_content.ObsidianModTime info.fields_content.ObsidianFilename =
      Decision.Skip) :
    processExpression o m info = [] := by
  unfold processExpression
  cases hl : lookupGroup m info.ankiExpression with
  | none =>
    rw [hl] at h
    exact absurd h (by simp [decideFor])
  | some group =>
    rw [hl] at h
    by_cases hu : updateNeededGroup group info.fields_content.ObsidianModTime
        info.fields_content.ObsidianFilename = true
    · simp [decideFor, hu] at h
    · have hu' := Bool.eq_false_iff.mpr hu
      simp [hu']

/-- Realizing `Create` with every call succeeding: other expressions'
notes are untouched, and the freshly created group makes the next decision
for this record `Skip`. -/
theorem create_post (st : SyncState) (info : NoteInfo)
    (he : info.ankiExpression ≠ "") (hmt : info.fields_content.ObsidianModTime ≠ "")
    (hpne : info.prompts ≠ [])
    (hps : ∀ p ∈ info.prompts, strippedEmpty p = false)
    (hempty : notesFor info.ankiExpression st.store = []) :
    (∀ e', e' ≠ info.ankiExpression →
      notesFor e' (applyCalls st (add_new_notes_to_anki allOk info).1).store =
        notesFor e' st.store) ∧
    decideFor
      (lookupGroup (snapshot (applyCalls st (add_new_notes_to_anki allOk info).1).store)
        info.ankiExpression)
      info.fields_content.ObsidianModTime info.fields_content.ObsidianFilename =
      Decision.Skip := by
  have htrace : (add_new_notes_to_anki allOk info).1 =
      info.prompts.map fun p =>
        Call.addNote (buildFields info.ankiExpression p info.fields_content) := by
    unfold add_new_notes_to_anki
    rw [addLoop_all_success allOk _ _ info.prompts 0 hps (fun j => rfl)]
  rw [htrace, applyCalls_addTrace]
  constructor
  · intro e' hne
    show notesFor e' (st.store ++ addedList info.ankiExpression info.fields_content
      st.nextId info.prompts) = notesFor e' st.store
    rw [notesFor_append,
      notesFor_addedList_other e' info.ankiExpression _ (fun hh => hne hh.symm),
      List.append_nil]
  · apply decideFor_skip_of_fresh_group _ info he hmt st.nextId info.prompts _ hpne
    show notesFor info.ankiExpression (st.store ++ addedList info.ankiExpression
      info.fields_content st.nextId info.prompts) = _
    rw [notesFor_append, hempty, notesFor_addedList_self, List.nil_append]

/-- Realizing `Replace` with every call succeeding: the group is deleted and
recreated from the local record; other expressions' notes are untouched, and
the next decision for this record is `Skip`. -/
theorem replace_post (st0 st : SyncState) (info : NoteInfo)
    (hw0 : wfStore st0) (hx : Extends st0 st)
    (he : info.ankiExpression ≠ "") (hmt : info.fields_content.ObsidianModTime ≠ "")
    (hpne : info.prompts ≠ [])
    (hps : ∀ p ∈ info.prompts, strippedEmpty p = false)
    (hsame : notesFor info.ankiExpression st.store = notesFor info.ankiExpression st0.store)
    (group : List RemoteNote)
    (hl : lookupGroup (snapshot st0.store) info.ankiExpression = some group) :
    (∀ e', e' ≠ info.ankiExpression →
      notesFor e' (applyCalls st (update_notes_in_anki allOk group info).1).store =
        notesFor e' st.store) ∧
    decideFor
      (lookupGroup (snapshot (applyCalls st (update_notes_in_anki allOk group info).1).store)
        info.ankiExpression)
      info.fields_content.ObsidianModTime info.fields_content.ObsidianFilename =
      Decision.Skip := by
  obtain ⟨hgeq, hgne⟩ := lookupGroup_snapshot_some _ he st0.store group hl
  have hids : group.map RemoteNote.noteId =
      (notesFor info.ankiExpression st0.store).map Prod.fst := by
    rw [hgeq, map_noteId_mkRemote]
  have hgne' : group ≠ [] := by
    intro hh
    rw [hh] at hgeq
    exact hgne (List.map_eq_nil_iff.mp hgeq.symm)
  have hupdate : (update_notes_in_anki allOk group info).1 =
      Call.deleteNotes (group.map RemoteNote.noteId) ::
        (add_new_notes_to_anki allOk info).1 := by
    cases group with
    | nil => exact absurd rfl hgne'
    | cons a as => simp [update_notes_in_anki, allOk]
  have htrace : (add_new_notes_to_anki allOk info).1 =
      info.prompts.map fun p =>
        Call.addNote (buildFields info.ankiExpression p info.fields_content) := by
    unfold add_new_notes_to_anki
    rw [addLoop_all_success allOk _ _ info.prompts 0 hps (fun j => rfl)]
  have hDelSelf : notesFor info.ankiExpression
      (applyCall st (Call.deleteNotes (group.map RemoteNote.noteId))).store = [] := by
    show notesFor info.ankiExpression
      (st.store.filter fun x => !((group.map RemoteNote.noteId).contains x.1)) = []
    rw [hids]
    exact delete_group_self st0.store st.store info.ankiExpression hsame
  have hDelFrame : ∀ e', e' ≠ info.ankiExpression →
      notesFor e' (applyCall st (Call.deleteNotes (group.map RemoteNote.noteId))).store =
        notesFor e' st.store := by
    intro e' hne
    show notesFor e'
      (st.store.filter fun x => !((group.map RemoteNote.noteId).contains x.1)) = _
    rw [hids]
    exact delete_group_frame st0 st hw0 hx info.ankiExpression e' (fun hh => hne hh.symm)
  rw [hupdate, applyCalls_cons, htrace, applyCalls_addTrace]
  constructor
  · intro e' hne
    show notesFor e'
      ((applyCall st (Call.deleteNotes (group.map RemoteNote.noteId))).store ++
        addedList info.ankiExpression info.fields_content _ info.prompts) =
      notesFor e' st.store
    rw [notesFor_append,
      notesFor_addedList_other e' info.ankiExpression _ (fun hh => hne hh.symm),
      List.append_nil]
    exact hDelFrame e' hne
  · refine decideFor_skip_of_fresh_group _ info he hmt
      (applyCall st (Call.deleteNotes (group.map RemoteNote.noteId))).nextId
      info.prompts ?_ hpne
    show notesFor info.ankiExpression
      ((applyCall st (Call.deleteNotes (group.map RemoteNote.noteId))).store ++
        addedList info.ankiExpression info.fields_content _ info.prompts) = _
    rw [notesFor_append, hDelSelf, notesFor_addedList_self, List.nil_append]

/-- One step of the reconciliation loop under the all-success oracle:
well-formedness and provenance are preserved, other expressions' notes are
untouched, and the processed record's next decision is `Skip`. -/
theorem processStep (st0 st : SyncState) (info : NoteInfo)
    (hw0 : wfStore st0) (hw : wfStore st) (hx : Extends st0 st)
    (hg : GoodInfo info)
    (hsame : notesFor info.ankiExpression st.store =
      notesFor info.ankiExpression st0.store) :
    wfStore (applyCalls st (processExpression allOk (snapshot st0.store) info)) ∧
    Extends st0 (applyCalls st (processExpression allOk (snapshot st0.store) info)) ∧
    (∀ e', e' ≠ info.ankiExpression →
      notesFor e'
        (applyCalls st (processExpression allOk (snapshot st0.store) info)).store =
      notesFor e' st.store) ∧
    decideFor
      (lookupGroup
        (snapshot (applyCalls st (processExpression allOk (snapshot st0.store) info)).store)
        info.ankiExpression)
      info.fields_content.ObsidianModTime info.fields_content.ObsidianFilename =
      Decision.Skip := by
  obtain ⟨he, hmt, hpne, hps⟩ := hg
  refine ⟨applyCalls_wf _ st hw, applyCalls_extends st0 _ st hx, ?_⟩
  cases hl : lookupGroup (snapshot st0.store) info.ankiExpression with
  | none =>
    have hempty : notesFor info.ankiExpression st.store = [] := by
      rw [hsame]
      exact (lookupGroup_snapshot_none_iff _ he st0.store).mp hl
    have hpe : processExpression allOk (snapshot st0.store) info =
        (add_new_notes_to_anki allOk info).1 := by
      simp [processExpression, hl]
    rw [hpe]
    exact create_post st info he hmt hpne hps hempty
  | some group =>
    by_cases hu : updateNeededGroup group info.fields_content.ObsidianModTime
        info.fields_content.ObsidianFilename = true
    · have hpe : processExpression allOk (snapshot st0.store) info =
          (update_notes_in_anki allOk group info).1 := by
        simp [processExpression, hl, hu]
      rw [hpe]
      exact replace_post st0 st info hw0 hx he hmt hpne hps hsame group hl
    · have hu' := Bool.eq_false_iff.mpr hu
      have hpe : processExpression allOk (snapshot st0.store) info = [] := by
        simp [processExpression, hl, hu']
      rw [hpe]
      refine ⟨fun e' _ => rfl, ?_⟩
      show decideFor (lookupGroup (snapshot st.store) info.ankiExpression) _ _ = _
      have hsnap : lookupGroup (snapshot st.store) info.ankiExpression =
          lookupGroup (snapshot st0.store) info.ankiExpression := by
        rw [lookupGroup_snapshot _ he, lookupGroup_snapshot _ he, hsame]
      rw [hsnap, hl]
      simp [decideFor, hu']

/-! ### Whole-run lemmas -/

theorem runLocals_cons (o : Anki) (m : List (String × List RemoteNote)) (info : NoteInfo)
    (rest : List NoteInfo) (st : SyncState) :
    runLocals o m (info :: rest) st =
      (processExpression o m info ++
        (runLocals o m rest (applyCalls st (processExpression o m info))).1,
       (runLocals o m rest (applyCalls st (processExpression o m info))).2) := rfl

theorem lookup_snapshot_congr (e : String) (he : e ≠ "")
    (sA sB : List (Nat × NoteFields)) (h : notesFor e sA = notesFor e sB) :
    lookupGroup (snapshot sA) e = lookupGroup (snapshot sB) e := by
  rw [lookupGroup_snapshot _ he, lookupGroup_snapshot _ he, h]

/-- Run-1 postcondition under the all-success oracle: the final store is
well formed, untouched expressions keep their notes, and every processed
record's decision against the final store is `Skip`. -/
theorem runLocals_post (st0 : SyncState) (hw0 : wfStore st0) :
    ∀ (locals : List NoteInfo) (st : SyncState),
      wfStore st → Extends st0 st →
      (∀ info ∈ locals, GoodInfo info) →
      locals.Pairwise (fun a b => a.ankiExpression ≠ b.ankiExpression) →
      (∀ info ∈ locals, notesFor info.ankiExpression st.store =
        notesFor info.ankiExpression st0.store) →
      wfStore (runLocals allOk (snapshot st0.store) locals st).2 ∧
      Extends st0 (runLocals allOk (snapshot st0.store) locals st).2 ∧
      (∀ e, (∀ info ∈ locals, info.ankiExpression ≠ e) →
        notesFor e (runLocals allOk (snapshot st0.store) locals st).2.store =
          notesFor e st.store) ∧
      (∀ info ∈ locals,
        decideFor
          (lookupGroup (snapshot (runLocals allOk (snapshot st0.store) locals st).2.store)
            info.ankiExpression)
          info.fields_content.ObsidianModTime info.fields_content.ObsidianFilename =
          Decision.Skip) := by
  intro locals
  induction locals with
  | nil =>
    intro st hw hx _ _ _
    exact ⟨hw, hx, fun e _ => rfl, fun info h => absurd h (List.not_mem_nil info)⟩
  | cons info rest ih =>
    intro st hw hx hgood hpw hsame
    have hginfo := hgood info (List.mem_cons_self info rest)
    obtain ⟨hw', hx', hframe', hskip'⟩ :=
      processStep st0 st info hw0 hw hx hginfo (hsame info (List.mem_cons_self info rest))
    have hpw' := List.pairwise_cons.mp hpw
    have hsame' : ∀ i ∈ rest, notesFor i.ankiExpression
        (applyCalls st (processExpression allOk (snapshot st0.store) info)).store =
        notesFor i.ankiExpression st0.store := by
      intro i hi
      rw [hframe' i.ankiExpression (fun hh => hpw'.1 i hi hh.symm)]
      exact hsame i (List.mem_cons_of_mem info hi)
    obtain ⟨ihw, ihx, ihframe, ihskip⟩ :=
      ih (applyCalls st (processExpression allOk (snapshot st0.store) info)) hw' hx'
        (fun i hi => hgood i (List.mem_cons_of_mem info hi)) hpw'.2 hsame'
    rw [runLocals_cons]
    refine ⟨ihw, ihx, ?_, ?_⟩
    · intro e hne
      rw [ihframe e (fun i hi => hne i (List.mem_cons_of_mem info hi))]
      exact hframe' e (fun hh => hne info (List.mem_cons_self info rest) hh.symm)
    · intro i hi
      rcases List.mem_cons.mp hi with h | h
      · subst h
        have hpres : notesFor i.ankiExpression
            (runLocals allOk (snapshot st0.store) rest
              (applyCalls st (processExpression allOk (snapshot st0.store) i))).2.store =
            notesFor i.ankiExpression
              (applyCalls st (processExpression allOk (snapshot st0.store) i)).store :=
          ihframe i.ankiExpression (fun j hj hh => hpw'.1 j hj hh.symm)
        rw [lookup_snapshot_congr i.ankiExpression hginfo.1 _ _ hpres]
        exact hskip'
      · exact ihskip i h

/-- Running the loop when every record's decision is `Skip` issues no calls
and leaves the store untouched. -/
theorem runLocals_all_skip (o : Anki) (m : List (String × List RemoteNote)) :
    ∀ (locals : List NoteInfo) (st : SyncState),
      (∀ info ∈ locals,
        decideFor (lookupGroup m info.ankiExpression)
          info.fields_content.ObsidianModTime info.fields_content.ObsidianFilename =
          Decision.Skip) →
      runLocals o m locals st = ([], st) := by
  intro locals
  induction locals with
  | nil => intro st _; rfl
  | cons info rest ih =>
    intro st h
    have h0 := processExpression_eq_nil_of_skip o m info (h info (List.mem_cons_self info rest))
    rw [runLocals_cons, h0]
    have : applyCalls st [] = st := rfl
    rw [this, ih st (fun i hi => h i (List.mem_cons_of_mem info hi))]
    rfl

/-- One step never touches the notes of an expression it does not process,
for an arbitrary oracle. -/
theorem processStep_frame (st0 st : SyncState) (o : Anki) (info : NoteInfo) (e : String)
    (hw0 : wfStore st0) (hx : Extends st0 st) (hne : info.ankiExpression ≠ e) :
    notesFor e (applyCalls st (processExpression o (snapshot st0.store) info)).store =
      notesFor e st.store := by
  cases hl : lookupGroup (snapshot st0.store) info.ankiExpression with
  | none =>
    have hpe : processExpression o (snapshot st0.store) info =
        (add_new_notes_to_anki o info).1 := by
      simp [processExpression, hl]
    rw [hpe]
    exact applyCalls_addOnly_frame e info.ankiExpression hne _
      (addLoop_addOnly o info.ankiExpression info.fields_content info.prompts 0) st
  | some group =>
    have he : info.ankiExpression ≠ "" := by
      intro hh
      rw [hh, snapshot, lookupGroup_snapshotAux_empty_key] at hl
      exact Option.noConfusion hl
    obtain ⟨hgeq, hgne⟩ := lookupGroup_snapshot_some _ he st0.store group hl
    have hgne' : group ≠ [] := by
      intro hh
      rw [hh] at hgeq
      exact hgne (List.map_eq_nil_iff.mp hgeq.symm)
    have hids : group.map RemoteNote.noteId =
        (notesFor info.ankiExpression st0.store).map Prod.fst := by
      rw [hgeq, map_noteId_mkRemote]
    have hDelFrame : notesFor e
        (applyCall st (Call.deleteNotes (group.map RemoteNote.noteId))).store =
        notesFor e st.store := by
      show notesFor e
        (st.store.filter fun x => !((group.map RemoteNote.noteId).contains x.1)) = _
      rw [hids]
      exact delete_group_frame st0 st hw0 hx info.ankiExpression e hne
    by_cases hu : updateNeededGroup group info.fields_content.ObsidianModTime
        info.fields_content.ObsidianFilename = true
    · have hpe : processExpression o (snapshot st0.store) info =
          (update_notes_in_anki o group info).1 := by
        simp [processExpression, hl, hu]
      rw [hpe]
      cases group with
      | nil => exact absurd rfl hgne'
      | cons a as =>
        cases hdel : o.deleteOk
        · have hupd : (update_notes_in_anki o (a :: as) info).1 =
              [Call.deleteNotes ((a :: as).map RemoteNote.noteId)] := by
            simp [update_notes_in_anki, hdel]
          rw [hupd]
          exact hDelFrame
        · have hupd : (update_notes_in_anki o (a :: as) info).1 =
              Call.deleteNotes ((a :: as).map RemoteNote.noteId) ::
                (add_new_notes_to_anki o info).1 := by
            simp [update_notes_in_anki, hdel]
          rw [hupd, applyCalls_cons]
          have haddonly : AddOnly info.ankiExpression (add_new_notes_to_anki o info).1 :=
            addLoop_addOnly o info.ankiExpression info.fields_content info.prompts 0
          rw [applyCalls_addOnly_frame e info.ankiExpression hne
            (add_new_notes_to_anki o info).1 haddonly
            (applyCall st (Call.deleteNotes ((a :: as).map RemoteNote.noteId)))]
          exact hDelFrame
    · have hu' := Bool.eq_false_iff.mpr hu
      have hpe : processExpression o (snapshot st0.store) info = [] := by
        simp [processExpression, hl, hu']
      rw [hpe]
      rfl

/-- A whole run never touches the notes of an expression carried by no
processed record, for an arbitrary oracle. -/
theorem runLocals_frame (st0 : SyncState) (hw0 : wfStore st0) (o : Anki) (e : String) :
    ∀ (locals : List NoteInfo) (st : SyncState),
      wfStore st → Extends st0 st →
      (∀ info ∈ locals, info.ankiExpression ≠ e) →
      notesFor e (runLocals o (snapshot st0.store) locals st).2.store =
        notesFor e st.store := by
  intro locals
  induction locals with
  | nil => intro st _ _ _; rfl
  | cons info rest ih =>
    intro st hw hx hne
    rw [runLocals_cons]
    rw [ih (applyCalls st (processExpression o (snapshot st0.store) info))
      (applyCalls_wf _ st hw) (applyCalls_extends st0 _ st hx)
      (fun i hi => hne i (List.mem_cons_of_mem info hi))]
    exact processStep_frame st0 st o info e hw0 hx (hne info (List.mem_cons_self info rest))

theorem filterMap_id_map_some (l : List NoteInfo) :
    (l.map some).filterMap id = l := by
  induction l with
  | nil => rfl
  | cons a l ih => simp [List.filterMap_cons, ih]

/-- C4 counterexample: two source files sharing one identifier (legal input
— the spec itself notes the filename fallback can merge notes) with
different modification timestamps break second-run cleanliness: both
first-run decisions read the same stale snapshot, both create, and the
second run sees the older record first and issues a delete and a create.
The claim's unconditional "zero remote mutations on the second run" is
false. -/
theorem second_run_mutates_on_duplicate_identifiers :
    (runSync allOk
        [some { ankiExpression := "がる", prompts := ["p"],
                fields_content :=
                  { Meaning := "m", Structure := "s", ExamplesJP := "", ExamplesEN := "",
                    UsageNotes := "u", ObsidianFilename := "a.md",
                    ObsidianModTime := "2024-01-01T00:00:00",
                    ObsidianVaultName := "v" } },
         some { ankiExpression := "がる", prompts := ["p"],
                fields_content :=
                  { Meaning := "m", Structure := "s", ExamplesJP := "", ExamplesEN := "",
                    UsageNotes := "u", ObsidianFilename := "a.md",
                    ObsidianModTime := "2024-06-01T00:00:00",
                    ObsidianVaultName := "v" } }]
        (runSync allOk
          [some { ankiExpression := "がる", prompts := ["p"],
                  fields_content :=
                    { Meaning := "m", Structure := "s", ExamplesJP := "", ExamplesEN := "",
                      UsageNotes := "u", ObsidianFilename := "a.md",
                      ObsidianModTime := "2024-01-01T00:00:00",
                      ObsidianVaultName := "v" } },
           some { ankiExpression := "がる", prompts := ["p"],
                  fields_content :=
                    { Meaning := "m", Structure := "s", ExamplesJP := "", ExamplesEN := "",
                      UsageNotes := "u", ObsidianFilename := "a.md",
                      ObsidianModTime := "2024-06-01T00:00:00",
                      ObsidianVaultName := "v" } }]
          { store := [], nextId := 0 }).2).1 ≠ [] := by
  decide

/-- C4 (amended): (1) for every identifier present remotely whose first
remote record carries a nonempty timestamp that the local timestamp does not
strictly exceed, with an unchanged relative path, the decision is `Skip` and
the step issues zero remote calls; (2) for extraction-produced records —
nonempty identifiers and timestamps, valid prompts — with pairwise-distinct
identifiers, a second reconciliation over unchanged sources issues zero
remote calls, because first-run creations carry the local timestamp and
path. -/
theorem skip_when_current_and_second_run_clean :
    (∀ (o : Anki) (m : List (String × List RemoteNote)) (info : NoteInfo)
       (first : RemoteNote) (rest : List RemoteNote) (t : String),
       lookupGroup m info.ankiExpression = some (first :: rest) →
       first.obsidianModTime = some t → t ≠ "" →
       pyLt t info.fields_content.ObsidianModTime = false →
       first.obsidianFilename = some info.fields_content.ObsidianFilename →
       decideFor (some (first :: rest)) info.fields_content.ObsidianModTime
         info.fields_content.ObsidianFilename = Decision.Skip ∧
       processExpression o m info = []) ∧
    (∀ (locals : List NoteInfo) (st0 : SyncState),
       wfStore st0 →
       (∀ info ∈ locals, GoodInfo info) →
       locals.Pairwise (fun a b => a.ankiExpression ≠ b.ankiExpression) →
       (runSync allOk (locals.map some) (runSync allOk (locals.map some) st0).2).1 = []) := by
  constructor
  · intro o m info first rest t hlk hmteq htne hlt hfile
    have hskip : decideFor (some (first :: rest)) info.fields_content.ObsidianModTime
        info.fields_content.ObsidianFilename = Decision.Skip := by
      simp [decideFor, updateNeededGroup, updateNeeded, hmteq, pyTruthy,
        isEmpty_eq_false_of_ne htne, hlt, hfile]
    refine ⟨hskip, ?_⟩
    apply processExpression_eq_nil_of_skip
    rw [hlk]
    exact hskip
  · intro locals st0 hw0 hgood hpw
    have hfm : (locals.map some).filterMap id = locals := filterMap_id_map_some locals
    have h1 : runSync allOk (locals.map some) st0 =
        runLocals allOk (snapshot st0.store) locals st0 := by
      unfold runSync
      rw [hfm]
    obtain ⟨_, _, _, hskips⟩ :=
      runLocals_post st0 hw0 locals st0 hw0 ⟨Nat.le_refl _, fun x hx => Or.inl hx⟩
        hgood hpw (fun i _ => rfl)
    rw [h1]
    have h2 : runSync allOk (locals.map some)
        (runLocals allOk (snapshot st0.store) locals st0).2 =
        runLocals allOk
          (snapshot (runLocals allOk (snapshot st0.store) locals st0).2.store) locals
          (runLocals allOk (snapshot st0.store) locals st0).2 := by
      unfold runSync
      rw [hfm]
    rw [h2, runLocals_all_skip allOk _ locals _ hskips]

/-- C4 amended-theorem witness: one record, empty initial store — the second
run issues no calls. -/
theorem skip_when_current_and_second_run_clean_witness :
    (runSync allOk
        [some { ankiExpression := "がる", prompts := ["p"],
                fields_content :=
                  { Meaning := "m", Structure := "s", ExamplesJP := "", ExamplesEN := "",
                    UsageNotes := "u", ObsidianFilename := "a.md",
                    ObsidianModTime := "2024-06-01T00:00:00",
                    ObsidianVaultName := "v" } }]
        (runSync allOk
          [some { ankiExpression := "がる", prompts := ["p"],
                  fields_content :=
                    { Meaning := "m", Structure := "s", ExamplesJP := "", ExamplesEN := "",
                      UsageNotes := "u", ObsidianFilename := "a.md",
                      ObsidianModTime := "2024-06-01T00:00:00",
                      ObsidianVaultName := "v" } }]
          { store := [], nextId := 0 }).2).1 = [] :=
  skip_when_current_and_second_run_clean.2
    [{ ankiExpression := "がる", prompts := ["p"],
       fields_content :=
         { Meaning := "m", Structure := "s", ExamplesJP := "", ExamplesEN := "",
           UsageNotes := "u", ObsidianFilename := "a.md",
           ObsidianModTime := "2024-06-01T00:00:00",
           ObsidianVaultName := "v" } }]
    { store := [], nextId := 0 }
    (by constructor <;> simp) (by decide) (by decide)

/-- C5: an identifier present in the remote snapshot and matched by no
successfully extracted record is reported in the orphan set, and the whole
run — under any oracle, so regardless of per-call outcomes — leaves its
record group exactly as it was: orphans are never deleted or modified. -/
theorem orphan_reported_and_untouched (o : Anki) (extracted : List (Option NoteInfo))
    (st : SyncState) (e : String)
    (hw : wfStore st)
    (hkey : e ∈ (snapshot st.store).map Prod.fst)
    (hnomatch : ∀ info ∈ extracted.filterMap id, info.ankiExpression ≠ e) :
    e ∈ orphanExpressions extracted st ∧
    notesFor e ((runSync o extracted st).2.store) = notesFor e st.store := by
  constructor
  · refine List.mem_filter.mpr ⟨hkey, ?_⟩
    have hnp : e ∉ processedExpressions extracted := by
      intro hmem
      obtain ⟨info, hin, heq⟩ := List.mem_map.mp hmem
      exact hnomatch info hin heq
    simpa using hnp
  · unfold runSync
    exact runLocals_frame st hw o e (extracted.filterMap id) st hw
      ⟨Nat.le_refl _, fun x hx => Or.inl hx⟩ hnomatch

/-- C5 witness: a store holding one "がる" group, a run processing one other
identifier: "がる" is orphaned and its notes survive unchanged. -/
theorem orphan_reported_and_untouched_witness :
    "がる" ∈ orphanExpressions
        [some { ankiExpression := "ばかり", prompts := ["q"],
                fields_content :=
                  { Meaning := "m", Structure := "s", ExamplesJP := "", ExamplesEN := "",
                    UsageNotes := "u", ObsidianFilename := "b.md",
                    ObsidianModTime := "2024-06-01T00:00:00",
                    ObsidianVaultName := "v" } }]
        { store := [(0, { AnkiExpression := "がる", EnglishSituationPrompt := "p",
                          Meaning := "m", Structure := "s", ExamplesJP := "",
                          ExamplesEN := "", UsageNotes := "u",
                          ObsidianFilename := "a.md",
                          ObsidianModTime := "2024-01-01T00:00:00",
                          ObsidianVaultName := "v" })], nextId := 1 } ∧
    notesFor "がる"
        ((runSync allOk
          [some { ankiExpression := "ばかり", prompts := ["q"],
                  fields_content :=
                    { Meaning := "m", Structure := "s", ExamplesJP := "", ExamplesEN := "",
                      UsageNotes := "u", ObsidianFilename := "b.md",
                      ObsidianModTime := "2024-06-01T00:00:00",
                      ObsidianVaultName := "v" } }]
          { store := [(0, { AnkiExpression := "がる", EnglishSituationPrompt := "p",
                            Meaning := "m", Structure := "s", ExamplesJP := "",
                            ExamplesEN := "", UsageNotes := "u",
                            ObsidianFilename := "a.md",
                            ObsidianModTime := "2024-01-01T00:00:00",
                            ObsidianVaultName := "v" })], nextId := 1 }).2.store) =
      notesFor "がる"
        ({ store := [(0, { AnkiExpression := "がる", EnglishSituationPrompt := "p",
                           Meaning := "m", Structure := "s", ExamplesJP := "",
                           ExamplesEN := "", UsageNotes := "u",
                           ObsidianFilename := "a.md",
                           ObsidianModTime := "2024-01-01T00:00:00",
                           ObsidianVaultName := "v" })], nextId := 1 } : SyncState).store :=
  orphan_reported_and_untouched allOk _ _ "がる" (by constructor <;> simp)
    (by decide) (by decide)

end ObsidianSync
